import Mathlib

/-!
A shallow embedding of the upload-validate-convert-cleanup pipeline of
`app.py` (a Streamlit front-end that muxes one image and one audio file
into a video by shelling out to ffmpeg).

The filesystem is modelled as an association list from path strings to
byte lists (most recent write first).  The external tool (ffmpeg) is an
opaque collaborator modelled by a `ToolBehavior` record: whether the
executable resolves on PATH at page-render time and at invocation time,
its exit code, its captured stdout and stderr text, and the bytes it
writes to the requested output path when it actually runs.  Uncaught
Python exceptions (a failing `open(..., "wb")` write, or reading an
output file the tool never produced) surface as the `uncaught`
constructor of `PipelineOutcome`, carrying the filesystem state at the
point the exception was raised.
-/

/-- A filesystem: an association list from paths to file contents.  The
most recent write for a path appears first. -/
abbrev FS := List (String × List Nat)

/-- Path existence test, modelling `os.path.exists`. -/
def fsExists (fs : FS) (p : String) : Bool := fs.any (fun e => e.1 = p)

/-- Read a file's bytes, modelling `open(p, "rb")` + read; `none` when the
path is absent (Python raises `FileNotFoundError`). -/
def fsRead (fs : FS) (p : String) : Option (List Nat) :=
  (fs.find? (fun e => e.1 = p)).map (fun e => e.2)

/-- Write bytes to a path, modelling `open(p, "wb")` + write; overwrites
any previous contents. -/
def fsWrite (fs : FS) (p : String) (b : List Nat) : FS := (p, b) :: fs

/-- Delete a path, modelling `os.remove`. -/
def fsRemove (fs : FS) (p : String) : FS := fs.filter (fun e => e.1 ≠ p)

/-- A write that may fail: a write to a path in `failPaths` raises an
OSError (the fault injection for disk-full or permission failures). -/
def fsWriteF (failPaths : List String) (fs : FS) (p : String) (b : List Nat) : Option FS :=
  if failPaths.contains p then none else some (fsWrite fs p b)

/-- ASCII lowercase of one character, modelling `str.lower` on the ASCII
range (the accepted extensions are all ASCII). -/
def asciiLowerChar (c : Char) : Char :=
  if 'A' ≤ c ∧ c ≤ 'Z' then Char.ofNat (c.toNat + 32) else c

/-- Lowercase a string, modelling `str.lower`. -/
def strLower (s : String) : String := ⟨s.data.map asciiLowerChar⟩

/-- The extension component of `os.path.splitext`, over a character list:
take the part of the path after the last separator (the basename); the
extension runs from the basename's last dot to the end, except that it is
empty when every character before that dot in the basename is itself a
dot (so `".png"` and `"..png"` have no extension), or when the basename
has no dot at all. -/
def splitextExtL (p : List Char) : List Char :=
  let base := (p.reverse.takeWhile (fun c => c ≠ '/')).reverse
  let rev := base.reverse
  match rev.dropWhile (fun c => c ≠ '.') with
  | [] => []
  | _ :: stemRev =>
    if stemRev.any (fun c => c ≠ '.') then
      '.' :: (rev.takeWhile (fun c => c ≠ '.')).reverse
    else []

/-- `os.path.splitext(s)[1]` as a string function. -/
def splitextExt (s : String) : String := ⟨splitextExtL s.data⟩

/-- Accepted image extensions (app.py line 97). -/
def imageExts : List String := [".png", ".jpg", ".jpeg"]

/-- Accepted audio extensions (app.py line 99). -/
def audioExts : List String := [".mp3", ".mpeg"]

/-- Image-role extension validation: `os.path.splitext(name)[1].lower()`
is a member of the accepted image set (app.py lines 95 and 97). -/
def validImageName (n : String) : Bool := imageExts.contains (strLower (splitextExt n))

/-- Audio-role extension validation: `os.path.splitext(name)[1].lower()`
is a member of the accepted audio set (app.py lines 96 and 99). -/
def validAudioName (n : String) : Bool := audioExts.contains (strLower (splitextExt n))

/-- The opaque external tool: whether the ffmpeg executable resolves at
page render and at invocation, its exit code, its captured stdout and
stderr text, and the bytes it writes to the output path when it runs. -/
structure ToolBehavior where
  foundAtCheck : Bool
  foundAtRun : Bool
  exitCode : Nat
  stdoutText : String
  stderrText : String
  writes : Option (List Nat)
deriving DecidableEq, Repr

/-- `check_ffmpeg()`: `shutil.which("ffmpeg") is not None`. -/
def check_ffmpeg (tool : ToolBehavior) : Bool := tool.foundAtCheck

/-- The command list built by `convert_image_to_video` (app.py lines
32-37), verbatim. -/
def buildCmd (image_path audio_path output_path bitrate : String) : List String :=
  ["ffmpeg", "-y", "-loop", "1", "-i", image_path,
   "-i", audio_path, "-c:v", "libx264", "-tune", "stillimage",
   "-c:a", "aac", "-b:a", bitrate, "-pix_fmt", "yuv420p",
   "-shortest", output_path]

/-- The fixed guidance message returned when the ffmpeg executable cannot
be resolved at invocation time (app.py line 43). -/
def ffmpegMissingMsg : String :=
  "FFmpeg not found. Please ensure FFmpeg is installed and added to your system PATH."

/-- The fixed success message (app.py line 39). -/
def successMsg : String := "Video created successfully!"

/-- `convert_image_to_video(image_path, audio_path, output_path, bitrate)`
(app.py lines 29-43): build the fixed command list and run it with
`subprocess.run(cmd, check=True, capture_output=True, text=True)`.
If the executable does not resolve, `FileNotFoundError` is caught and the
fixed guidance message returned, the filesystem untouched.  Otherwise the
tool runs (writing to the output path whatever its behaviour dictates);
exit code zero yields the fixed success message, nonzero raises
`CalledProcessError`, caught and turned into `"FFmpeg Error: "` plus the
captured stderr text. -/
def convert_image_to_video (tool : ToolBehavior) (image_path audio_path output_path : String)
    (bitrate : String) (fs : FS) : (Bool × String) × FS :=
  let _cmd := buildCmd image_path audio_path output_path bitrate
  if tool.foundAtRun then
    let fs1 := match tool.writes with
      | some b => fsWrite fs output_path b
      | none => fs
    if tool.exitCode = 0 then ((true, successMsg), fs1)
    else ((false, "FFmpeg Error: " ++ tool.stderrText), fs1)
  else ((false, ffmpegMissingMsg), fs)

/-- An uploaded file: original client filename plus content bytes. -/
structure UploadedFile where
  name : String
  content : List Nat
deriving DecidableEq, Repr

/-- The user-visible outcome of pressing the Generate button. -/
inductive PipelineResult where
  | missingUpload
  | ffmpegUnavailable
  | invalidImage
  | invalidAudio
  | conversionFailed (message : String)
  | videoReady (downloadName : String) (downloadBytes : List Nat)
deriving DecidableEq, Repr

/-- Either the button handler returns normally with a result and a final
filesystem, or an exception escapes it uncaught, with the filesystem as
it stood when the exception was raised. -/
inductive PipelineOutcome where
  | ok (res : PipelineResult) (fs : FS)
  | uncaught (fs : FS)
deriving DecidableEq, Repr

/-- The selectbox options for the audio bitrate (app.py line 85). -/
def bitrateOptions : List String := ["128k", "192k", "256k", "320k"]

/-- The bitrate string produced by the selectbox: the user can only pick
one of the four listed options, by index. -/
def pipelineBitrate : Fin 4 → String
  | 0 => "128k"
  | 1 => "192k"
  | 2 => "256k"
  | 3 => "320k"

/-- Temp path for an uploaded input: `f"temp/{unique_id}_{file.name}"`
(app.py lines 106-107). -/
def tempInputPath (token name : String) : String := "temp/" ++ token ++ "_" ++ name

/-- Temp path for the produced video: `f"temp/output_{unique_id}.mp4"`
(app.py line 108). -/
def outputPathOf (token : String) : String := "temp/output_" ++ token ++ ".mp4"

/-- One iteration of the cleanup loop (app.py lines 137-139):
`if os.path.exists(path): os.remove(path)`. -/
def cleanupStep (fs : FS) (p : String) : FS := if fsExists fs p then fsRemove fs p else fs

/-- The cleanup loop over the job's derived paths (app.py lines 136-139). -/
def cleanupPaths (fs : FS) (ps : List String) : FS := ps.foldl cleanupStep fs

/-- The three derived paths of a job, in the order the cleanup loop
visits them. -/
def jobPaths (token imgName audName : String) : List String :=
  [tempInputPath token imgName, tempInputPath token audName, outputPathOf token]

/-- The Generate-button handler (app.py lines 88-139): missing-upload
check, ffmpeg re-check, extension validation, then the job proper —
write both uploads to token-derived temp paths, call
`convert_image_to_video`, on success read the output file and offer it
for download as `output.mp4`, and finally run the cleanup loop.  The
input writes and the output read sit outside any try block, so their
failures escape as uncaught exceptions and skip the cleanup loop. -/
def runPipeline (tool : ToolBehavior) (failPaths : List String)
    (imageFile audioFile : Option UploadedFile) (sel : Fin 4) (token : String)
    (fs : FS) : PipelineOutcome :=
  match imageFile, audioFile with
  | some image, some audio =>
    if check_ffmpeg tool = false then .ok .ffmpegUnavailable fs
    else if validImageName image.name = false then .ok .invalidImage fs
    else if validAudioName audio.name = false then .ok .invalidAudio fs
    else
      let temp_image_path := tempInputPath token image.name
      let temp_audio_path := tempInputPath token audio.name
      let output_path := outputPathOf token
      match fsWriteF failPaths fs temp_image_path image.content with
      | none => .uncaught fs
      | some fs1 =>
        match fsWriteF failPaths fs1 temp_audio_path audio.content with
        | none => .uncaught fs1
        | some fs2 =>
          let r := convert_image_to_video tool temp_image_path temp_audio_path output_path
            (pipelineBitrate sel) fs2
          if r.1.1 then
            match fsRead r.2 output_path with
            | none => .uncaught r.2
            | some outBytes =>
              .ok (.videoReady "output.mp4" outBytes)
                (cleanupPaths r.2 [temp_image_path, temp_audio_path, output_path])
          else
            .ok (.conversionFailed r.1.2)
              (cleanupPaths r.2 [temp_image_path, temp_audio_path, output_path])
  | _, _ => .ok .missingUpload fs

/-- Whether the outcome shows the job was actually started (the handler
got past validation into the write-convert-cleanup block). -/
def startedJob : PipelineOutcome → Bool
  | .uncaught _ => true
  | .ok (.conversionFailed _) _ => true
  | .ok (.videoReady _ _) _ => true
  | .ok .missingUpload _ => false
  | .ok .ffmpegUnavailable _ => false
  | .ok .invalidImage _ => false
  | .ok .invalidAudio _ => false

/-- The alphabet of `str(uuid.uuid4())`: lowercase hex digits and the
dash. -/
def uuidChars : List Char := "0123456789abcdef-".data

/-- Shape of a `str(uuid.uuid4())` token: 36 characters, all drawn from
lowercase hex digits and dashes. -/
def isUuidToken (t : String) : Bool :=
  t.length = 36 && t.data.all (fun c => uuidChars.contains c)

/-- Diagnostic text of a run when both captured streams are combined
(what the spec calls the captured combined diagnostic output). -/
def combinedDiagnostics (tool : ToolBehavior) : String :=
  tool.stdoutText ++ tool.stderrText

/-- Does `needle` occur contiguously (verbatim) inside `hay`? -/
def occursIn (needle : List Char) : List Char → Bool
  | [] => needle.isEmpty
  | c :: cs => needle.isPrefixOf (c :: cs) || occursIn needle cs

/-- Overwrite flag of the spec's argument list. -/
def specOverwriteFlag : List String := ["-y"]

/-- Loop flag with value 1. -/
def specLoopFlag : List String := ["-loop", "1"]

/-- Input image path argument pair. -/
def specImageInput (p : String) : List String := ["-i", p]

/-- Input audio path argument pair. -/
def specAudioInput (p : String) : List String := ["-i", p]

/-- Video codec selector. -/
def specVideoCodec : List String := ["-c:v", "libx264"]

/-- Still-image tuning flag. -/
def specStillImageTune : List String := ["-tune", "stillimage"]

/-- Audio codec selector. -/
def specAudioCodec : List String := ["-c:a", "aac"]

/-- Audio bitrate argument pair with the caller-selected value. -/
def specAudioBitrate (b : String) : List String := ["-b:a", b]

/-- Pixel format selector. -/
def specPixelFormat : List String := ["-pix_fmt", "yuv420p"]

/-- Shortest-stream flag. -/
def specShortestFlag : List String := ["-shortest"]

/-- The final dot-delimited suffix of a filename (the claim's naive
reading of "extension"): everything from the last dot to the end, empty
when the name has no dot. -/
def finalDotSuffix (s : String) : String :=
  if s.data.contains '.' then ⟨'.' :: (s.data.reverse.takeWhile (fun c => c ≠ '.')).reverse⟩
  else ""

theorem fsExists_fsRemove_self (fs : FS) (p : String) : fsExists (fsRemove fs p) p = false := by
  simp [fsRemove, fsExists, List.any_filter]

theorem fsExists_fsRemove_mono (fs : FS) (p q : String)
    (h : fsExists fs q = false) : fsExists (fsRemove fs p) q = false := by
  simp only [fsRemove, fsExists, List.any_filter]
  simp only [fsExists] at h
  rw [List.any_eq_false] at h ⊢
  intro e he
  have h2 := h e he
  simp only [decide_eq_false_iff_not] at h2
  simp [h2]

theorem fsExists_cleanupStep_self (fs : FS) (p : String) :
    fsExists (cleanupStep fs p) p = false := by
  unfold cleanupStep
  by_cases h : fsExists fs p = true
  · simp [h, fsExists_fsRemove_self]
  · simp only [h, if_neg]
    simpa using h

theorem fsExists_cleanupStep_mono (fs : FS) (p q : String)
    (h : fsExists fs q = false) : fsExists (cleanupStep fs p) q = false := by
  unfold cleanupStep
  by_cases hp : fsExists fs p = true
  · simp [hp, fsExists_fsRemove_mono _ _ _ h]
  · simp [hp, h]

theorem fsExists_cleanupPaths_mono (ps : List String) (fs : FS) (q : String)
    (h : fsExists fs q = false) : fsExists (cleanupPaths fs ps) q = false := by
  induction ps generalizing fs with
  | nil => simpa [cleanupPaths] using h
  | cons a tl ih =>
    simpa [cleanupPaths] using ih (cleanupStep fs a) (fsExists_cleanupStep_mono fs a q h)

theorem fsExists_cleanupPaths (ps : List String) (fs : FS) (p : String) (hp : p ∈ ps) :
    fsExists (cleanupPaths fs ps) p = false := by
  induction ps generalizing fs with
  | nil => cases hp
  | cons a tl ih =>
    rcases List.mem_cons.mp hp with h | h
    · subst h
      exact fsExists_cleanupPaths_mono tl (cleanupStep fs p) p (fsExists_cleanupStep_self fs p)
    · simpa [cleanupPaths] using ih (cleanupStep fs a) h

theorem takeWhile_append_all {p : Char → Bool} {a b : List Char} (h : ∀ x ∈ a, p x = true) :
    (a ++ b).takeWhile p = a ++ b.takeWhile p := by
  induction a with
  | nil => simp
  | cons c cs ih =>
    have hc : p c = true := h c (by simp)
    simp [List.takeWhile_cons, hc, ih (fun x hx => h x (by simp [hx]))]

theorem dropWhile_append_all {p : Char → Bool} {a b : List Char} (h : ∀ x ∈ a, p x = true) :
    (a ++ b).dropWhile p = b.dropWhile p := by
  induction a with
  | nil => simp
  | cons c cs ih =>
    have hc : p c = true := h c (by simp)
    simp [List.dropWhile_cons, hc, ih (fun x hx => h x (by simp [hx]))]

theorem takeWhile_all {p : Char → Bool} {a : List Char} (h : ∀ x ∈ a, p x = true) :
    a.takeWhile p = a := by
  simpa using takeWhile_append_all (b := []) h

theorem splitextExtL_no_dot {l : List Char} (h : '.' ∉ l) : splitextExtL l = [] := by
  simp only [splitextExtL, List.reverse_reverse]
  have hdrop : (l.reverse.takeWhile (fun c => decide (c ≠ '/'))).dropWhile
      (fun c => decide (c ≠ '.')) = [] := by
    rw [List.dropWhile_eq_nil_iff]
    intro x hx
    have hxl : x ∈ l := by
      have := (List.takeWhile_sublist (l := l.reverse)
        (fun c => decide (c ≠ '/'))).subset hx
      simpa using this
    simp only [decide_eq_true_eq]
    intro hdot
    exact h (hdot ▸ hxl)
  rw [hdrop]

theorem splitextExtL_append_dot {pre suf : List Char}
    (hsuf : '.' ∉ suf) (hpre : '/' ∉ pre) (hsuf2 : '/' ∉ suf)
    (hnd : ∃ c ∈ pre, c ≠ '.') :
    splitextExtL (pre ++ '.' :: suf) = '.' :: suf := by
  have hrev : (pre ++ '.' :: suf).reverse = suf.reverse ++ '.' :: pre.reverse := by
    simp
  have hslash : ∀ x ∈ (pre ++ '.' :: suf).reverse, decide (x ≠ '/') = true := by
    intro x hx
    simp only [List.mem_reverse, List.mem_append, List.mem_cons] at hx
    simp only [decide_eq_true_eq]
    rcases hx with hx | hx | hx
    · exact fun hs => hpre (hs ▸ hx)
    · subst hx; decide
    · exact fun hs => hsuf2 (hs ▸ hx)
  have hsufrev : ∀ x ∈ suf.reverse, decide (x ≠ '.') = true := by
    intro x hx
    simp only [List.mem_reverse] at hx
    simp only [decide_eq_true_eq]
    exact fun hd => hsuf (hd ▸ hx)
  simp only [splitextExtL, List.reverse_reverse]
  rw [takeWhile_all hslash, hrev, dropWhile_append_all hsufrev, takeWhile_append_all hsufrev]
  have hstop : List.dropWhile (fun c => decide (c ≠ '.')) ('.' :: pre.reverse) =
      '.' :: pre.reverse := by
    simp [List.dropWhile_cons]
  have hstop2 : List.takeWhile (fun c => decide (c ≠ '.')) ('.' :: pre.reverse) = [] := by
    simp [List.takeWhile_cons]
  rw [hstop, hstop2]
  have hany : (pre.reverse.any fun c => decide (c ≠ '.')) = true := by
    rw [List.any_reverse, List.any_eq_true]
    obtain ⟨c, hc, hcd⟩ := hnd
    exact ⟨c, hc, by simpa using hcd⟩
  simp [hany]
  exact hnd

theorem validName_no_dot {n : String} (h : '.' ∉ n.data) :
    validImageName n = false ∧ validAudioName n = false := by
  have hx : splitextExt n = "" := by
    unfold splitextExt
    rw [splitextExtL_no_dot h]
  constructor
  · unfold validImageName
    rw [hx]
    decide
  · unfold validAudioName
    rw [hx]
    decide

theorem validImageName_append_dot {pre suf : List Char}
    (hsuf : '.' ∉ suf) (hpre : '/' ∉ pre) (hsuf2 : '/' ∉ suf)
    (hnd : ∃ c ∈ pre, c ≠ '.') :
    validImageName ⟨pre ++ '.' :: suf⟩ = imageExts.contains (strLower ⟨'.' :: suf⟩) := by
  unfold validImageName splitextExt
  rw [show (String.mk (pre ++ '.' :: suf)).data = pre ++ '.' :: suf from rfl,
    splitextExtL_append_dot hsuf hpre hsuf2 hnd]

theorem validAudioName_append_dot {pre suf : List Char}
    (hsuf : '.' ∉ suf) (hpre : '/' ∉ pre) (hsuf2 : '/' ∉ suf)
    (hnd : ∃ c ∈ pre, c ≠ '.') :
    validAudioName ⟨pre ++ '.' :: suf⟩ = audioExts.contains (strLower ⟨'.' :: suf⟩) := by
  unfold validAudioName splitextExt
  rw [show (String.mk (pre ++ '.' :: suf)).data = pre ++ '.' :: suf from rfl,
    splitextExtL_append_dot hsuf hpre hsuf2 hnd]

theorem tempInputPath_data (t n : String) :
    (tempInputPath t n).data = 't' :: 'e' :: 'm' :: 'p' :: '/' :: (t.data ++ '_' :: n.data) := by
  have h5 : "temp/".data = ['t', 'e', 'm', 'p', '/'] := rfl
  have hu : "_".data = ['_'] := rfl
  simp [tempInputPath, String.data_append, h5, hu, List.append_assoc]

theorem outputPathOf_data (t : String) :
    (outputPathOf t).data = 't' :: 'e' :: 'm' :: 'p' :: '/' :: 'o' :: 'u' :: 't' :: 'p' ::
      'u' :: 't' :: '_' :: (t.data ++ ['.', 'm', 'p', '4']) := by
  have h12 : "temp/output_".data =
      ['t', 'e', 'm', 'p', '/', 'o', 'u', 't', 'p', 'u', 't', '_'] := rfl
  have hm : ".mp4".data = ['.', 'm', 'p', '4'] := rfl
  simp [outputPathOf, String.data_append, h12, hm, List.append_assoc]

theorem uuidToken_parts {t : String} (h : isUuidToken t = true) :
    t.data.length = 36 ∧ ∀ c ∈ t.data, uuidChars.contains c = true := by
  simp only [isUuidToken, Bool.and_eq_true, decide_eq_true_eq, List.all_eq_true] at h
  exact ⟨h.1, h.2⟩

theorem tempInputPath_token_eq {t1 t2 n1 n2 : String}
    (h1 : t1.data.length = 36) (h2 : t2.data.length = 36)
    (h : tempInputPath t1 n1 = tempInputPath t2 n2) : t1 = t2 := by
  have hd := congrArg String.data h
  rw [tempInputPath_data, tempInputPath_data] at hd
  simp only [List.cons.injEq, true_and] at hd
  have := (List.append_inj hd (h1.trans h2.symm)).1
  cases t1
  cases t2
  simp only at this
  rw [this]

theorem tempInputPath_ne_outputPath {t1 t2 n : String} (h1 : isUuidToken t1 = true) :
    tempInputPath t1 n ≠ outputPathOf t2 := by
  intro h
  obtain ⟨hlen, hchars⟩ := uuidToken_parts h1
  have hd := congrArg String.data h
  rw [tempInputPath_data, outputPathOf_data] at hd
  simp only [List.cons.injEq, true_and] at hd
  obtain ⟨c, cs, hcs⟩ : ∃ c cs, t1.data = c :: cs := by
    cases hx : t1.data with
    | nil => rw [hx] at hlen; simp at hlen
    | cons c cs => exact ⟨c, cs, rfl⟩
  rw [hcs] at hd
  simp only [List.cons_append, List.cons.injEq] at hd
  have hco : c = 'o' := hd.1
  have hmem : uuidChars.contains c = true := hchars c (by rw [hcs]; exact List.mem_cons_self c cs)
  rw [hco] at hmem
  exact absurd hmem (by decide)

theorem outputPathOf_inj {t1 t2 : String} (h : outputPathOf t1 = outputPathOf t2) : t1 = t2 := by
  have hd := congrArg String.data h
  rw [outputPathOf_data, outputPathOf_data] at hd
  simp only [List.cons.injEq, true_and] at hd
  have := List.append_cancel_right hd
  cases t1
  cases t2
  simp only at this
  rw [this]

theorem isPrefixOf_self (l : List Char) : l.isPrefixOf l = true := by
  induction l with
  | nil => rfl
  | cons c cs ih => simp [List.isPrefixOf, ih]

theorem occursIn_append (x pre : List Char) : occursIn x (pre ++ x) = true := by
  induction pre with
  | nil =>
    cases x with
    | nil => rfl
    | cons c cs => simp [occursIn, isPrefixOf_self]
  | cons c cs ih => simp [occursIn, ih]

theorem runPipeline_convert_failure (tool : ToolBehavior) (failPaths : List String)
    (image audio : UploadedFile) (sel : Fin 4) (token : String) (fs : FS)
    (msg : String) (fs3 : FS)
    (hc : tool.foundAtCheck = true)
    (hv1 : validImageName image.name = true) (hv2 : validAudioName audio.name = true)
    (hf1 : failPaths.contains (tempInputPath token image.name) = false)
    (hf2 : failPaths.contains (tempInputPath token audio.name) = false)
    (hcv : convert_image_to_video tool (tempInputPath token image.name)
        (tempInputPath token audio.name) (outputPathOf token) (pipelineBitrate sel)
        (fsWrite (fsWrite fs (tempInputPath token image.name) image.content)
          (tempInputPath token audio.name) audio.content) = ((false, msg), fs3)) :
    runPipeline tool failPaths (some image) (some audio) sel token fs =
      .ok (.conversionFailed msg) (cleanupPaths fs3 [tempInputPath token image.name,
        tempInputPath token audio.name, outputPathOf token]) := by
  simp only [runPipeline, check_ffmpeg, hc, hv1, hv2, fsWriteF, hf1, hf2,
    Bool.true_eq_false, if_false, ite_false, Bool.false_eq_true]
  simp only [hcv]
  simp

theorem runPipeline_convert_success (tool : ToolBehavior) (failPaths : List String)
    (image audio : UploadedFile) (sel : Fin 4) (token : String) (fs : FS)
    (msg : String) (fs3 : FS) (outBytes : List Nat)
    (hc : tool.foundAtCheck = true)
    (hv1 : validImageName image.name = true) (hv2 : validAudioName audio.name = true)
    (hf1 : failPaths.contains (tempInputPath token image.name) = false)
    (hf2 : failPaths.contains (tempInputPath token audio.name) = false)
    (hcv : convert_image_to_video tool (tempInputPath token image.name)
        (tempInputPath token audio.name) (outputPathOf token) (pipelineBitrate sel)
        (fsWrite (fsWrite fs (tempInputPath token image.name) image.content)
          (tempInputPath token audio.name) audio.content) = ((true, msg), fs3))
    (hread : fsRead fs3 (outputPathOf token) = some outBytes) :
    runPipeline tool failPaths (some image) (some audio) sel token fs =
      .ok (.videoReady "output.mp4" outBytes)
        (cleanupPaths fs3 [tempInputPath token image.name,
          tempInputPath token audio.name, outputPathOf token]) := by
  simp only [runPipeline, check_ffmpeg, hc, hv1, hv2, fsWriteF, hf1, hf2,
    Bool.true_eq_false, if_false, ite_false, Bool.false_eq_true]
  simp only [hcv, hread]
  simp

/-- C2: for every job, the command line built by `convert_image_to_video`
is exactly the tool name followed by the fixed ordered argument list
(overwrite flag, loop flag with value 1, input image path, input audio
path, video codec selector, still-image tuning flag, audio codec
selector, the caller-selected audio bitrate, pixel format selector,
shortest-stream flag, output path), in that order with no other
arguments. -/
theorem cmd_exact_argument_list (image_path audio_path output_path bitrate : String) :
    buildCmd image_path audio_path output_path bitrate =
      "ffmpeg" :: (specOverwriteFlag ++ specLoopFlag ++ specImageInput image_path ++
        specAudioInput audio_path ++ specVideoCodec ++ specStillImageTune ++
        specAudioCodec ++ specAudioBitrate bitrate ++ specPixelFormat ++
        specShortestFlag ++ [output_path]) := by
  simp [buildCmd, specOverwriteFlag, specLoopFlag, specImageInput, specAudioInput,
    specVideoCodec, specStillImageTune, specAudioCodec, specAudioBitrate,
    specPixelFormat, specShortestFlag]

/-- C9: the audio bitrate used by every conversion comes from the
selectbox and is always one of the four enumerated options
128k, 192k, 256k, 320k; no other value can reach the pipeline. -/
theorem bitrate_enumerated :
    ∀ sel : Fin 4,
      pipelineBitrate sel ∈ bitrateOptions ∧
      (pipelineBitrate sel = "128k" ∨ pipelineBitrate sel = "192k" ∨
        pipelineBitrate sel = "256k" ∨ pipelineBitrate sel = "320k") := by
  decide

/-- C7: jobs with distinct uuid4-shaped tokens derive pairwise disjoint
three-path sets under the workspace root, so concurrent jobs never
produce colliding path names. -/
theorem distinct_tokens_disjoint_paths (t1 t2 ni1 na1 ni2 na2 : String)
    (h1 : isUuidToken t1 = true) (h2 : isUuidToken t2 = true) (hne : t1 ≠ t2) :
    ∀ p ∈ jobPaths t1 ni1 na1, ∀ q ∈ jobPaths t2 ni2 na2, p ≠ q := by
  have l1 := (uuidToken_parts h1).1
  have l2 := (uuidToken_parts h2).1
  intro p hp q hq
  simp only [jobPaths, List.mem_cons, List.not_mem_nil, or_false] at hp hq
  rcases hp with rfl | rfl | rfl <;> rcases hq with rfl | rfl | rfl
  · exact fun h => hne (tempInputPath_token_eq l1 l2 h)
  · exact fun h => hne (tempInputPath_token_eq l1 l2 h)
  · exact tempInputPath_ne_outputPath h1
  · exact fun h => hne (tempInputPath_token_eq l1 l2 h)
  · exact fun h => hne (tempInputPath_token_eq l1 l2 h)
  · exact tempInputPath_ne_outputPath h1
  · exact fun h => (tempInputPath_ne_outputPath h2) h.symm
  · exact fun h => (tempInputPath_ne_outputPath h2) h.symm
  · exact fun h => hne (outputPathOf_inj h)

/-- Witness for C7: two concrete uuid4-shaped tokens yield disjoint path
sets. -/
theorem distinct_tokens_disjoint_paths_witness :
    isUuidToken "00000000-0000-4000-8000-000000000000" = true ∧
    isUuidToken "11111111-1111-4111-9111-111111111111" = true ∧
    "00000000-0000-4000-8000-000000000000" ≠ "11111111-1111-4111-9111-111111111111" ∧
    ∀ p ∈ jobPaths "00000000-0000-4000-8000-000000000000" "a.png" "b.mp3",
      ∀ q ∈ jobPaths "11111111-1111-4111-9111-111111111111" "a.png" "b.mp3", p ≠ q :=
  ⟨by decide, by decide, by decide,
    distinct_tokens_disjoint_paths _ _ _ _ _ _ (by decide) (by decide) (by decide)⟩

/-- C10 counterexample: the bare dotfile name ".png" has final
dot-delimited suffix ".png", which is in the accepted image set, yet
validation rejects it, because `os.path.splitext` treats a basename
whose pre-dot characters are all dots as extensionless. -/
theorem final_suffix_counterexample :
    finalDotSuffix ".png" = ".png" ∧
    imageExts.contains (strLower (finalDotSuffix ".png")) = true ∧
    validImageName ".png" = false := by
  decide

/-- C10 (amended): validation inspects the final dot-delimited suffix of
the filename: a dotless name fails both roles, and a separator-free name
whose final suffix is in the accepted set passes regardless of earlier
suffixes, provided at least one character before the final dot is not
itself a dot (a name such as ".png", all of whose pre-suffix characters
are dots, is treated as extensionless and fails). -/
theorem validation_inspects_final_suffix :
    (∀ n : String, '.' ∉ n.data →
      validImageName n = false ∧ validAudioName n = false) ∧
    (∀ pre suf : List Char, '.' ∉ suf → '/' ∉ pre → '/' ∉ suf →
      (∃ c ∈ pre, c ≠ '.') →
      validImageName ⟨pre ++ '.' :: suf⟩ = imageExts.contains (strLower ⟨'.' :: suf⟩) ∧
      validAudioName ⟨pre ++ '.' :: suf⟩ = audioExts.contains (strLower ⟨'.' :: suf⟩)) := by
  constructor
  · exact fun n h => validName_no_dot h
  · intro pre suf hsuf hpre hsuf2 hnd
    exact ⟨validImageName_append_dot hsuf hpre hsuf2 hnd,
      validAudioName_append_dot hsuf hpre hsuf2 hnd⟩

/-- Witness for the amended C10: "x.mp3.png" passes the image role even
though an earlier suffix is ".mp3", and "noext" fails both roles. -/
theorem validation_inspects_final_suffix_witness :
    validImageName ⟨['x', '.', 'm', 'p', '3'] ++ '.' :: ['p', 'n', 'g']⟩ = true ∧
    validImageName "noext" = false ∧ validAudioName "noext" = false := by
  refine ⟨?_, ?_, ?_⟩
  · have h := validation_inspects_final_suffix.2 ['x', '.', 'm', 'p', '3'] ['p', 'n', 'g']
      (by decide) (by decide) (by decide) ⟨'x', by decide, by decide⟩
    rw [h.1]
    decide
  · exact (validation_inspects_final_suffix.1 "noext" (by decide)).1
  · exact (validation_inspects_final_suffix.1 "noext" (by decide)).2

/-- C3 counterexample: with the tool running, exiting 1, and writing "X"
to stdout and "Y" to stderr, the result message is "FFmpeg Error: Y"; it
is not "external tool error: " followed by the captured combined
diagnostic output, and the diagnostic text "X" does not appear verbatim
in it. -/
theorem tool_error_message_counterexample :
    (convert_image_to_video ⟨true, true, 1, "X", "Y", none⟩ "i" "a" "o" "192k" []).1 =
      (false, "FFmpeg Error: Y") ∧
    "FFmpeg Error: Y" ≠ "external tool error: " ++
      combinedDiagnostics ⟨true, true, 1, "X", "Y", none⟩ ∧
    occursIn "X".data "FFmpeg Error: Y".data = false := by
  decide

/-- C3 (amended): when the tool runs and exits nonzero the result is
succeeded=false with a message equal to the fixed prefix
"FFmpeg Error: " followed by the captured standard-error text only, so
standard-error diagnostic text appears verbatim in the message. -/
theorem tool_error_message_stderr (tool : ToolBehavior) (i a o b : String) (fs : FS)
    (hr : tool.foundAtRun = true) (he : tool.exitCode ≠ 0) :
    (convert_image_to_video tool i a o b fs).1.1 = false ∧
    (convert_image_to_video tool i a o b fs).1.2 = "FFmpeg Error: " ++ tool.stderrText ∧
    occursIn tool.stderrText.data ((convert_image_to_video tool i a o b fs).1.2).data
      = true := by
  have hmsg : (convert_image_to_video tool i a o b fs).1 =
      (false, "FFmpeg Error: " ++ tool.stderrText) := by
    simp [convert_image_to_video, hr, he]
  refine ⟨by rw [hmsg], by rw [hmsg], ?_⟩
  rw [hmsg]
  have hdata : ("FFmpeg Error: " ++ tool.stderrText).data =
      "FFmpeg Error: ".data ++ tool.stderrText.data := by
    simp [String.data_append]
  rw [show ((false, "FFmpeg Error: " ++ tool.stderrText) : Bool × String).2 =
    "FFmpeg Error: " ++ tool.stderrText from rfl, hdata]
  exact occursIn_append _ _

/-- Witness for the amended C3 at a concrete failing tool run. -/
theorem tool_error_message_stderr_witness :
    (convert_image_to_video ⟨true, true, 1, "", "boom", none⟩ "i" "a" "o" "128k" []).1.1
        = false ∧
    (convert_image_to_video ⟨true, true, 1, "", "boom", none⟩ "i" "a" "o" "128k" []).1.2 =
      "FFmpeg Error: " ++ (ToolBehavior.mk true true 1 "" "boom" none).stderrText ∧
    occursIn (ToolBehavior.mk true true 1 "" "boom" none).stderrText.data
      ((convert_image_to_video ⟨true, true, 1, "", "boom", none⟩ "i" "a" "o" "128k"
        []).1.2).data = true :=
  tool_error_message_stderr ⟨true, true, 1, "", "boom", none⟩ "i" "a" "o" "128k" []
    rfl (by decide)

theorem fsRead_fsWrite_self (fs : FS) (p : String) (b : List Nat) :
    fsRead (fsWrite fs p b) p = some b := by
  simp [fsRead, fsWrite, List.find?_cons_of_pos]

theorem runPipeline_invalidImage (tool : ToolBehavior) (failPaths : List String)
    (image audio : UploadedFile) (sel : Fin 4) (token : String) (fs : FS)
    (hc : tool.foundAtCheck = true) (hv1 : validImageName image.name = false) :
    runPipeline tool failPaths (some image) (some audio) sel token fs =
      .ok .invalidImage fs := by
  simp [runPipeline, check_ffmpeg, hc, hv1]

theorem runPipeline_invalidAudio (tool : ToolBehavior) (failPaths : List String)
    (image audio : UploadedFile) (sel : Fin 4) (token : String) (fs : FS)
    (hc : tool.foundAtCheck = true) (hv1 : validImageName image.name = true)
    (hv2 : validAudioName audio.name = false) :
    runPipeline tool failPaths (some image) (some audio) sel token fs =
      .ok .invalidAudio fs := by
  simp [runPipeline, check_ffmpeg, hc, hv1, hv2]

theorem startedJob_job (tool : ToolBehavior) (failPaths : List String)
    (image audio : UploadedFile) (sel : Fin 4) (token : String) (fs : FS)
    (hc : tool.foundAtCheck = true) (hv1 : validImageName image.name = true)
    (hv2 : validAudioName audio.name = true) :
    startedJob (runPipeline tool failPaths (some image) (some audio) sel token fs)
      = true := by
  simp only [runPipeline, check_ffmpeg, hc, hv1, hv2, Bool.true_eq_false, if_false,
    ite_false, Bool.false_eq_true]
  rcases h1 : fsWriteF failPaths fs (tempInputPath token image.name) image.content with
    _ | fs1
  · simp [startedJob]
  · simp only []
    rcases h2 : fsWriteF failPaths fs1 (tempInputPath token audio.name) audio.content with
      _ | fs2
    · simp [startedJob]
    · simp only []
      by_cases hb : (convert_image_to_video tool (tempInputPath token image.name)
          (tempInputPath token audio.name) (outputPathOf token) (pipelineBitrate sel)
          fs2).1.1 = true
      · simp only [hb, if_true, ite_true]
        rcases h3 : fsRead (convert_image_to_video tool (tempInputPath token image.name)
            (tempInputPath token audio.name) (outputPathOf token) (pipelineBitrate sel)
            fs2).2 (outputPathOf token) with _ | outBytes
        · simp [startedJob]
        · simp [startedJob]
      · simp only [hb, if_false, ite_false]
        simp [startedJob]

/-- C4: when the ffmpeg executable cannot be resolved at invocation time,
`convert_image_to_video` returns succeeded=false with the fixed guidance
message and leaves the filesystem untouched; a full pipeline run
surfaces that message as the failure message and the job's output path
does not exist afterwards — no output path is ever created by the job. -/
theorem tool_not_found_result (tool : ToolBehavior) (hr : tool.foundAtRun = false) :
    (∀ i a o b fs, convert_image_to_video tool i a o b fs = ((false, ffmpegMissingMsg), fs)) ∧
    (∀ (failPaths : List String) (image audio : UploadedFile) (sel : Fin 4)
        (token : String) (fs : FS),
      tool.foundAtCheck = true →
      validImageName image.name = true → validAudioName audio.name = true →
      failPaths.contains (tempInputPath token image.name) = false →
      failPaths.contains (tempInputPath token audio.name) = false →
      ∃ fsFinal,
        runPipeline tool failPaths (some image) (some audio) sel token fs =
          .ok (.conversionFailed ffmpegMissingMsg) fsFinal ∧
        fsExists fsFinal (outputPathOf token) = false) := by
  have hconv : ∀ i a o b fs,
      convert_image_to_video tool i a o b fs = ((false, ffmpegMissingMsg), fs) := by
    intro i a o b fs
    simp [convert_image_to_video, hr]
  refine ⟨hconv, ?_⟩
  intro failPaths image audio sel token fs hc hv1 hv2 hf1 hf2
  refine ⟨_, runPipeline_convert_failure tool failPaths image audio sel token fs
    ffmpegMissingMsg _ hc hv1 hv2 hf1 hf2 (hconv _ _ _ _ _), ?_⟩
  exact fsExists_cleanupPaths _ _ _ (by simp)

/-- Witness for C4 at a concrete job whose tool is absent at invocation
time. -/
theorem tool_not_found_result_witness :
    convert_image_to_video ⟨true, false, 0, "", "", none⟩ "i" "a" "o" "192k" [] =
      ((false, ffmpegMissingMsg), []) ∧
    ∃ fsFinal,
      runPipeline ⟨true, false, 0, "", "", none⟩ [] (some ⟨"a.png", [1]⟩)
          (some ⟨"b.mp3", [2]⟩) 1 "tok" [] =
        .ok (.conversionFailed ffmpegMissingMsg) fsFinal ∧
      fsExists fsFinal (outputPathOf "tok") = false := by
  have h := tool_not_found_result ⟨true, false, 0, "", "", none⟩ rfl
  exact ⟨h.1 "i" "a" "o" "192k" [],
    h.2 [] ⟨"a.png", [1]⟩ ⟨"b.mp3", [2]⟩ 1 "tok" [] rfl (by decide) (by decide) rfl rfl⟩

/-- C1 counterexample: a started job (both uploads present and valid,
tool available) whose audio-file write raises an exception keeps its
already-written temp image path on the filesystem afterwards, because
the uncaught exception skips the cleanup loop. -/
theorem cleanup_invariant_counterexample :
    runPipeline ⟨true, true, 0, "", "", some [0]⟩ [tempInputPath "tok" "b.mp3"]
        (some ⟨"a.png", [1]⟩) (some ⟨"b.mp3", [2]⟩) 1 "tok" [] =
      .uncaught [(tempInputPath "tok" "a.png", [1])] ∧
    fsExists [(tempInputPath "tok" "a.png", [1])] (tempInputPath "tok" "a.png") = true := by
  decide

/-- C6 counterexample: a filesystem write failure while persisting the
uploaded image escapes the pipeline as an uncaught exception instead of
being converted into a user-visible message plus a failed result. -/
theorem write_failure_uncaught_counterexample :
    runPipeline ⟨true, true, 0, "", "", some [0]⟩ [tempInputPath "tok2" "c.jpg"]
        (some ⟨"c.jpg", [3]⟩) (some ⟨"d.mp3", [4]⟩) 0 "tok2" [] =
      .uncaught [] := by
  decide

/-- C1 (amended): on the handled exit paths of a started job — success
with the tool having produced the output file, external-tool failure
with nonzero exit, and tool-not-found at invocation — the cleanup loop
runs and none of the job's three derived paths exists afterwards; an
unexpected exception while writing the input files (or a missing output
file after exit zero) skips the cleanup loop, so already-created paths
may persist on those paths. -/
theorem cleanup_on_handled_exit_paths (tool : ToolBehavior) (failPaths : List String)
    (image audio : UploadedFile) (sel : Fin 4) (token : String) (fs : FS)
    (hc : tool.foundAtCheck = true)
    (hv1 : validImageName image.name = true) (hv2 : validAudioName audio.name = true)
    (hf1 : failPaths.contains (tempInputPath token image.name) = false)
    (hf2 : failPaths.contains (tempInputPath token audio.name) = false)
    (hout : tool.foundAtRun = true → tool.exitCode = 0 → ∃ b, tool.writes = some b) :
    ∃ res fsFinal,
      runPipeline tool failPaths (some image) (some audio) sel token fs = .ok res fsFinal ∧
      fsExists fsFinal (tempInputPath token image.name) = false ∧
      fsExists fsFinal (tempInputPath token audio.name) = false ∧
      fsExists fsFinal (outputPathOf token) = false := by
  set fs2 := fsWrite (fsWrite fs (tempInputPath token image.name) image.content)
    (tempInputPath token audio.name) audio.content with hfs2
  cases hrun : tool.foundAtRun with
  | false =>
    have hcv : convert_image_to_video tool (tempInputPath token image.name)
        (tempInputPath token audio.name) (outputPathOf token) (pipelineBitrate sel) fs2 =
        ((false, ffmpegMissingMsg), fs2) := by
      simp [convert_image_to_video, hrun]
    exact ⟨_, _, runPipeline_convert_failure _ _ _ _ _ _ _ _ _ hc hv1 hv2 hf1 hf2 hcv,
      fsExists_cleanupPaths _ _ _ (by simp), fsExists_cleanupPaths _ _ _ (by simp),
      fsExists_cleanupPaths _ _ _ (by simp)⟩
  | true =>
    by_cases h0 : tool.exitCode = 0
    · obtain ⟨b, hw⟩ := hout hrun h0
      have hcv : convert_image_to_video tool (tempInputPath token image.name)
          (tempInputPath token audio.name) (outputPathOf token) (pipelineBitrate sel) fs2 =
          ((true, successMsg), fsWrite fs2 (outputPathOf token) b) := by
        simp [convert_image_to_video, hrun, h0, hw]
      exact ⟨_, _, runPipeline_convert_success _ _ _ _ _ _ _ _ _ _ hc hv1 hv2 hf1 hf2 hcv
        (fsRead_fsWrite_self _ _ _),
        fsExists_cleanupPaths _ _ _ (by simp), fsExists_cleanupPaths _ _ _ (by simp),
        fsExists_cleanupPaths _ _ _ (by simp)⟩
    · rcases hwc : tool.writes with _ | b
      · have hcv : convert_image_to_video tool (tempInputPath token image.name)
            (tempInputPath token audio.name) (outputPathOf token) (pipelineBitrate sel)
            fs2 = ((false, "FFmpeg Error: " ++ tool.stderrText), fs2) := by
          simp [convert_image_to_video, hrun, h0, hwc]
        exact ⟨_, _, runPipeline_convert_failure _ _ _ _ _ _ _ _ _ hc hv1 hv2 hf1 hf2 hcv,
          fsExists_cleanupPaths _ _ _ (by simp), fsExists_cleanupPaths _ _ _ (by simp),
          fsExists_cleanupPaths _ _ _ (by simp)⟩
      · have hcv : convert_image_to_video tool (tempInputPath token image.name)
            (tempInputPath token audio.name) (outputPathOf token) (pipelineBitrate sel)
            fs2 = ((false, "FFmpeg Error: " ++ tool.stderrText),
              fsWrite fs2 (outputPathOf token) b) := by
          simp [convert_image_to_video, hrun, h0, hwc]
        exact ⟨_, _, runPipeline_convert_failure _ _ _ _ _ _ _ _ _ hc hv1 hv2 hf1 hf2 hcv,
          fsExists_cleanupPaths _ _ _ (by simp), fsExists_cleanupPaths _ _ _ (by simp),
          fsExists_cleanupPaths _ _ _ (by simp)⟩

/-- Witness for the amended C1 at a concrete successful job. -/
theorem cleanup_on_handled_exit_paths_witness :
    ∃ res fsFinal,
      runPipeline ⟨true, true, 0, "", "", some [7]⟩ [] (some ⟨"a.png", [1]⟩)
          (some ⟨"b.mp3", [2]⟩) 1 "tok" [] = .ok res fsFinal ∧
      fsExists fsFinal (tempInputPath "tok" "a.png") = false ∧
      fsExists fsFinal (tempInputPath "tok" "b.mp3") = false ∧
      fsExists fsFinal (outputPathOf "tok") = false :=
  cleanup_on_handled_exit_paths _ _ _ _ _ _ _ rfl (by decide) (by decide) rfl rfl
    (fun _ _ => ⟨[7], rfl⟩)

/-- C5: with both uploads present and the tool available, the job is
started iff the image filename's extension (compared case-insensitively)
is in the accepted image set and the audio filename's extension is in
the accepted audio set; when validation fails the handler returns before
any filesystem write, leaving the workspace unchanged. -/
theorem extension_validation_gates_job (tool : ToolBehavior) (failPaths : List String)
    (image audio : UploadedFile) (sel : Fin 4) (token : String) (fs : FS)
    (hc : tool.foundAtCheck = true) :
    (startedJob (runPipeline tool failPaths (some image) (some audio) sel token fs)
        = true ↔
      validImageName image.name = true ∧ validAudioName audio.name = true) ∧
    (validImageName image.name = false →
      runPipeline tool failPaths (some image) (some audio) sel token fs =
        .ok .invalidImage fs) ∧
    (validImageName image.name = true → validAudioName audio.name = false →
      runPipeline tool failPaths (some image) (some audio) sel token fs =
        .ok .invalidAudio fs) := by
  refine ⟨⟨?_, ?_⟩,
    fun hv1 => runPipeline_invalidImage tool failPaths image audio sel token fs hc hv1,
    fun hv1 hv2 =>
      runPipeline_invalidAudio tool failPaths image audio sel token fs hc hv1 hv2⟩
  · intro hstart
    by_cases hv1 : validImageName image.name = true
    · by_cases hv2 : validAudioName audio.name = true
      · exact ⟨hv1, hv2⟩
      · rw [runPipeline_invalidAudio tool failPaths image audio sel token fs hc hv1
          (by simpa using hv2)] at hstart
        simp [startedJob] at hstart
    · rw [runPipeline_invalidImage tool failPaths image audio sel token fs hc
        (by simpa using hv1)] at hstart
      simp [startedJob] at hstart
  · rintro ⟨hv1, hv2⟩
    exact startedJob_job tool failPaths image audio sel token fs hc hv1 hv2

/-- Witness for C5 at a concrete upload pair. -/
theorem extension_validation_gates_job_witness :
    (startedJob (runPipeline ⟨true, true, 1, "", "e", none⟩ [] (some ⟨"a.png", [1]⟩)
        (some ⟨"b.mp3", [2]⟩) 2 "tok" []) = true ↔
      validImageName "a.png" = true ∧ validAudioName "b.mp3" = true) ∧
    (validImageName "a.png" = false →
      runPipeline ⟨true, true, 1, "", "e", none⟩ [] (some ⟨"a.png", [1]⟩)
          (some ⟨"b.mp3", [2]⟩) 2 "tok" [] = .ok .invalidImage []) ∧
    (validImageName "a.png" = true → validAudioName "b.mp3" = false →
      runPipeline ⟨true, true, 1, "", "e", none⟩ [] (some ⟨"a.png", [1]⟩)
          (some ⟨"b.mp3", [2]⟩) 2 "tok" [] = .ok .invalidAudio []) :=
  extension_validation_gates_job ⟨true, true, 1, "", "e", none⟩ [] ⟨"a.png", [1]⟩
    ⟨"b.mp3", [2]⟩ 2 "tok" [] rfl

/-- C6 (amended): errors of the external tool invocation — nonzero exit
and missing executable — are caught at the pipeline boundary and
converted into a failed result carrying a user-visible message; a
filesystem write failure while persisting the uploads, however, is not
caught and propagates as an uncaught exception. -/
theorem tool_errors_caught_at_boundary (tool : ToolBehavior) (failPaths : List String)
    (image audio : UploadedFile) (sel : Fin 4) (token : String) (fs : FS)
    (hc : tool.foundAtCheck = true)
    (hv1 : validImageName image.name = true) (hv2 : validAudioName audio.name = true)
    (hf1 : failPaths.contains (tempInputPath token image.name) = false)
    (hf2 : failPaths.contains (tempInputPath token audio.name) = false)
    (herr : tool.foundAtRun = false ∨ tool.exitCode ≠ 0) :
    ∃ msg fsFinal,
      runPipeline tool failPaths (some image) (some audio) sel token fs =
        .ok (.conversionFailed msg) fsFinal := by
  set fs2 := fsWrite (fsWrite fs (tempInputPath token image.name) image.content)
    (tempInputPath token audio.name) audio.content with hfs2
  cases hrun : tool.foundAtRun with
  | false =>
    have hcv : convert_image_to_video tool (tempInputPath token image.name)
        (tempInputPath token audio.name) (outputPathOf token) (pipelineBitrate sel) fs2 =
        ((false, ffmpegMissingMsg), fs2) := by
      simp [convert_image_to_video, hrun]
    exact ⟨_, _, runPipeline_convert_failure _ _ _ _ _ _ _ _ _ hc hv1 hv2 hf1 hf2 hcv⟩
  | true =>
    have h0 : tool.exitCode ≠ 0 := by
      rcases herr with hr | he
      · rw [hrun] at hr; cases hr
      · exact he
    rcases hwc : tool.writes with _ | b
    · have hcv : convert_image_to_video tool (tempInputPath token image.name)
          (tempInputPath token audio.name) (outputPathOf token) (pipelineBitrate sel)
          fs2 = ((false, "FFmpeg Error: " ++ tool.stderrText), fs2) := by
        simp [convert_image_to_video, hrun, h0, hwc]
      exact ⟨_, _, runPipeline_convert_failure _ _ _ _ _ _ _ _ _ hc hv1 hv2 hf1 hf2 hcv⟩
    · have hcv : convert_image_to_video tool (tempInputPath token image.name)
          (tempInputPath token audio.name) (outputPathOf token) (pipelineBitrate sel)
          fs2 = ((false, "FFmpeg Error: " ++ tool.stderrText),
            fsWrite fs2 (outputPathOf token) b) := by
        simp [convert_image_to_video, hrun, h0, hwc]
      exact ⟨_, _, runPipeline_convert_failure _ _ _ _ _ _ _ _ _ hc hv1 hv2 hf1 hf2 hcv⟩

/-- Witness for the amended C6 at a concrete failing tool run. -/
theorem tool_errors_caught_at_boundary_witness :
    ∃ msg fsFinal,
      runPipeline ⟨true, true, 3, "", "broken pipe", none⟩ [] (some ⟨"a.png", [1]⟩)
          (some ⟨"b.mp3", [2]⟩) 0 "tok" [] = .ok (.conversionFailed msg) fsFinal :=
  tool_errors_caught_at_boundary _ _ _ _ _ _ _ rfl (by decide) (by decide) rfl rfl
    (Or.inr (by decide))

/-- C8: when the tool runs and exits zero having written bytes to the
job's output path, `convert_image_to_video` returns succeeded=true with
the fixed success message, and the pipeline offers exactly those bytes
for download under the fixed name output.mp4. -/
theorem success_download_bytes (tool : ToolBehavior) (failPaths : List String)
    (image audio : UploadedFile) (sel : Fin 4) (token : String) (fs : FS)
    (bytes : List Nat)
    (hc : tool.foundAtCheck = true) (hr : tool.foundAtRun = true)
    (he : tool.exitCode = 0) (hw : tool.writes = some bytes)
    (hv1 : validImageName image.name = true) (hv2 : validAudioName audio.name = true)
    (hf1 : failPaths.contains (tempInputPath token image.name) = false)
    (hf2 : failPaths.contains (tempInputPath token audio.name) = false) :
    (∀ i a o b fs0, (convert_image_to_video tool i a o b fs0).1 = (true, successMsg)) ∧
    ∃ fsFinal,
      runPipeline tool failPaths (some image) (some audio) sel token fs =
        .ok (.videoReady "output.mp4" bytes) fsFinal := by
  have hconv : ∀ i a o b fs0, convert_image_to_video tool i a o b fs0 =
      ((true, successMsg), fsWrite fs0 o bytes) := by
    intro i a o b fs0
    simp [convert_image_to_video, hr, he, hw]
  refine ⟨fun i a o b fs0 => by rw [hconv], ?_⟩
  exact ⟨_, runPipeline_convert_success tool failPaths image audio sel token fs
    successMsg _ bytes hc hv1 hv2 hf1 hf2 (hconv _ _ _ _ _) (fsRead_fsWrite_self _ _ _)⟩

/-- Witness for C8 at a concrete successful job: the downloaded bytes
are exactly the bytes the tool wrote. -/
theorem success_download_bytes_witness :
    (∀ i a o b fs0, (convert_image_to_video ⟨true, true, 0, "", "", some [9, 8, 7]⟩
        i a o b fs0).1 = (true, successMsg)) ∧
    ∃ fsFinal,
      runPipeline ⟨true, true, 0, "", "", some [9, 8, 7]⟩ [] (some ⟨"a.png", [1]⟩)
          (some ⟨"b.mp3", [2]⟩) 3 "tok" [] =
        .ok (.videoReady "output.mp4" [9, 8, 7]) fsFinal :=
  success_download_bytes _ _ _ _ _ _ _ _ rfl rfl rfl rfl (by decide) (by decide) rfl rfl
